import Mathlib

/-!
# Lower-third control channel

A shallow embedding of `web/setup_lower_thirds.go`: the functions
`saveLowerThird` and `reorderLowerThird` and the command loop of
`lowerThirdsWebsocketHandler`, followed by theorems about them.

Conventions of the embedding.

* A Go `error` is its message; `none` is the `nil` error.
* A `*model.LowerThird` that may be nil is an `Option LowerThird`.
* A Go `int` is an `Int`; the only arithmetic is `lowerThirdIndex--` and
  `lowerThirdIndex++` on an index bounded by a slice length, far from overflow.
* The database behind `web.arena.Database` is a parameter: a record of
  state-passing methods over an arbitrary state type. Every call the code makes
  on a collaborator is appended to `Web.effects`, oldest first.
* A run-time panic (nil pointer dereference, index out of range) is an explicit
  outcome.
-/

namespace CheesyArena

/-! ## Data model -/

/-- Modelled from the spec: the record type `model.LowerThird`, whose declaration is in
package `model`, outside the sources. The source reads the fields `Id` and `DisplayOrder`;
the spec calls the rest free-form display text (title and caption). -/
structure LowerThird where
  Id : Int
  TopText : String
  BottomText : String
  DisplayOrder : Int
  deriving DecidableEq, Repr

/-- The methods of `web.arena.Database` called by the handlers, over a database state `σ`.
A method that receives a `*model.LowerThird` also returns the record as the call left it,
since the callee may write through the pointer. -/
structure Database (σ : Type) where
  GetLowerThirdById : σ → Int → Except String (Option LowerThird) × σ
  GetAllLowerThirds : σ → Except String (List LowerThird) × σ
  CreateLowerThird : σ → LowerThird → Option String × LowerThird × σ
  SaveLowerThird : σ → LowerThird → Option String × LowerThird × σ
  DeleteLowerThird : σ → LowerThird → Option String × LowerThird × σ

/-- One call on a collaborator, or one assignment to shared arena state, made by the code. -/
inductive Effect where
  | GetLowerThirdById (id : Int)
  | GetAllLowerThirds
  | CreateLowerThird (lowerThird : LowerThird)
  | SaveLowerThird (lowerThird : LowerThird)
  | DeleteLowerThird (lowerThird : LowerThird)
  | LowerThirdNotify (lowerThird : LowerThird)
  | SetAudienceDisplayScreen (screen : String)
  | AudienceDisplayNotify
  deriving DecidableEq, Repr

/-- Whether an effect is a store write. -/
def Effect.isWrite : Effect → Bool
  | .CreateLowerThird _ => true
  | .SaveLowerThird _ => true
  | .DeleteLowerThird _ => true
  | _ => false

/-- The part of `web.arena` that the handlers touch, with the record of effects. -/
structure Web (σ : Type) where
  Database : σ
  AudienceDisplayScreen : String
  effects : List Effect

/-- Append one effect to the record. -/
def Web.log {σ : Type} (web : Web σ) (e : Effect) : Web σ :=
  { web with effects := web.effects ++ [e] }

/-- Replace the database state. -/
def Web.setDatabase {σ : Type} (web : Web σ) (s : σ) : Web σ :=
  { web with Database := s }

/-- The run-time panics the code can raise. -/
inductive Panic where
  | nilPointerDereference
  | indexOutOfRange
  deriving DecidableEq, Repr

/-- How a Go function of result type `error` ends. -/
inductive Outcome where
  | returned (err : Option String)
  | panicked (p : Panic)
  deriving DecidableEq, Repr

/-! ## saveLowerThird and reorderLowerThird -/

/-- Embedding of `saveLowerThird` (lines 142-158): the returned error, the record behind the
pointer argument after the call, and the new state. -/
def saveLowerThird {σ : Type} (db : Database σ) (lowerThird : LowerThird) (web : Web σ) :
    Option String × LowerThird × Web σ :=
  match db.GetLowerThirdById web.Database lowerThird.Id with
  | (.error err, s) =>
    (some err, lowerThird, (web.log (.GetLowerThirdById lowerThird.Id)).setDatabase s)
  | (.ok oldLowerThird, s) =>
    let web := (web.log (.GetLowerThirdById lowerThird.Id)).setDatabase s
    match oldLowerThird with
    | none =>
      match db.CreateLowerThird web.Database lowerThird with
      | (err, lowerThird1, s1) =>
        (err, lowerThird1, (web.log (.CreateLowerThird lowerThird)).setDatabase s1)
    | some _ =>
      match db.SaveLowerThird web.Database lowerThird with
      | (err, lowerThird1, s1) =>
        (err, lowerThird1, (web.log (.SaveLowerThird lowerThird)).setDatabase s1)

/-- The scan of lines 171-177, started at position `i`: the value of `lowerThirdIndex` after the
loop. The variable keeps its zero value when no element matches; comparing against a nil
`lowerThird` panics at the first element. -/
def scanIndex (lowerThird : Option LowerThird) : List LowerThird → Nat → Except Panic Int
  | [], _ => .ok 0
  | third :: rest, i =>
    match lowerThird with
    | none => .error .nilPointerDereference
    | some lt => if third.Id = lt.Id then .ok (i : Int) else scanIndex (some lt) rest (i + 1)

/-- Lines 178-182: step the index up or down the list. -/
def stepIndex (lowerThirdIndex : Int) (moveUp : Bool) : Int :=
  if moveUp then lowerThirdIndex - 1 else lowerThirdIndex + 1

/-- Lines 192-204: swap the display orders and save both records. -/
def swapAndSave {σ : Type} (db : Database σ) (lowerThird adjacentLowerThird : Option LowerThird)
    (web : Web σ) : Outcome × Web σ :=
  match adjacentLowerThird, lowerThird with
  | none, _ => (.panicked .nilPointerDereference, web)
  | some _, none => (.panicked .nilPointerDereference, web)
  | some adj, some lt =>
    let lt1 : LowerThird := { lt with DisplayOrder := adj.DisplayOrder }
    let adj1 : LowerThird := { adj with DisplayOrder := lt.DisplayOrder }
    match db.SaveLowerThird web.Database lt1 with
    | (some err, _, s) => (.returned (some err), (web.log (.SaveLowerThird lt1)).setDatabase s)
    | (none, _, s) =>
      let web := (web.log (.SaveLowerThird lt1)).setDatabase s
      match db.SaveLowerThird web.Database adj1 with
      | (some err, _, s1) => (.returned (some err), (web.log (.SaveLowerThird adj1)).setDatabase s1)
      | (none, _, s1) => (.returned none, (web.log (.SaveLowerThird adj1)).setDatabase s1)

/-- Embedding of `reorderLowerThird` (lines 160-205). -/
def reorderLowerThird {σ : Type} (db : Database σ) (id : Int) (moveUp : Bool) (web : Web σ) :
    Outcome × Web σ :=
  match db.GetLowerThirdById web.Database id with
  | (.error err, s) => (.returned (some err), (web.log (.GetLowerThirdById id)).setDatabase s)
  | (.ok lowerThird, s) =>
    let web := (web.log (.GetLowerThirdById id)).setDatabase s
    match db.GetAllLowerThirds web.Database with
    | (.error err, s1) => (.returned (some err), (web.log .GetAllLowerThirds).setDatabase s1)
    | (.ok lowerThirds, s1) =>
      let web := (web.log .GetAllLowerThirds).setDatabase s1
      match scanIndex lowerThird lowerThirds 0 with
      | .error p => (.panicked p, web)
      | .ok scanned =>
        let lowerThirdIndex := stepIndex scanned moveUp
        if lowerThirdIndex < 0 ∨ lowerThirdIndex = (lowerThirds.length : Int) then
          (.returned (some "Already at the limit."), web)
        else
          match lowerThirds[lowerThirdIndex.toNat]? with
          | none => (.panicked .indexOutOfRange, web)
          | some third =>
            match db.GetLowerThirdById web.Database third.Id with
            | (.error err, s2) =>
              (.returned (some err), (web.log (.GetLowerThirdById third.Id)).setDatabase s2)
            | (.ok adjacentLowerThird, s2) =>
              swapAndSave db lowerThird adjacentLowerThird
                ((web.log (.GetLowerThirdById third.Id)).setDatabase s2)

/-! ## The websocket and the command loop -/

/-- Modelled from the spec: an outbound message of the control channel, a type tag and a
payload (`reload` carries none, `error` carries the text). The websocket package is outside
the sources. -/
structure Message where
  messageType : String
  data : Option String
  deriving DecidableEq, Repr

/-- Modelled from the spec: the write side of the connection. `written` holds every message
handed to the channel, oldest first; `writeErrs` holds the results of the writes to come
(a write beyond the end of it succeeds). -/
structure Websocket where
  written : List Message
  writeErrs : List (Option String)
  deriving DecidableEq, Repr

/-- Modelled from the spec: `websocket.Write(messageType, data)`. -/
def Websocket.Write (ws : Websocket) (messageType : String) (data : Option String) :
    Option String × Websocket :=
  (ws.writeErrs.head?.join,
    { written := ws.written ++ [⟨messageType, data⟩], writeErrs := ws.writeErrs.tail })

/-- Modelled from the spec: `websocket.WriteError(text)`, the outbound error signal. -/
def Websocket.WriteError (ws : Websocket) (text : String) : Option String × Websocket :=
  ws.Write "error" (some text)

/-- The reload message of line 134. -/
def Message.reload : Message := ⟨"reload", none⟩

/-- The arguments of the reorder command (lines 114-117). -/
structure ReorderArgs where
  Id : Int
  MoveUp : Bool
  deriving DecidableEq, Repr

/-- The untyped payload of an inbound message, seen through the two `mapstructure.Decode`
calls the handler applies to it: into a `model.LowerThird` and into the reorder arguments. -/
structure Data where
  decodeLowerThird : Except String LowerThird
  decodeReorderArgs : Except String ReorderArgs

/-- How one pass through the loop body ends: at the top of the loop again (`continue`, or
falling out of the body), with a `return`, or with a panic. -/
inductive Flow where
  | next
  | exit
  | panic (p : Panic)
  deriving DecidableEq, Repr

/-- Lines 133-138: send the reload message; a write error ends the handler. -/
def writeReload {σ : Type} (web : Web σ) (ws : Websocket) : Flow × Web σ × Websocket :=
  match ws.Write "reload" none with
  | (some _, ws1) => (.exit, web, ws1)
  | (none, ws1) => (.next, web, ws1)

/-- Lines 69-138: the loop body after a successful read of `messageType` and `data`. -/
def handleMessage {σ : Type} (db : Database σ) (messageType : String) (data : Data)
    (web : Web σ) (ws : Websocket) : Flow × Web σ × Websocket :=
  if messageType = "saveLowerThird" then
    match data.decodeLowerThird with
    | .error err => (.next, web, (ws.WriteError err).2)
    | .ok lowerThird => writeReload (saveLowerThird db lowerThird web).2.2 ws
  else if messageType = "deleteLowerThird" then
    match data.decodeLowerThird with
    | .error err => (.next, web, (ws.WriteError err).2)
    | .ok lowerThird =>
      match db.DeleteLowerThird web.Database lowerThird with
      | (some err, _, s) =>
        (.next, (web.log (.DeleteLowerThird lowerThird)).setDatabase s, (ws.WriteError err).2)
      | (none, _, s) => writeReload ((web.log (.DeleteLowerThird lowerThird)).setDatabase s) ws
  else if messageType = "showLowerThird" then
    match data.decodeLowerThird with
    | .error err => (.next, web, (ws.WriteError err).2)
    | .ok lowerThird =>
      match saveLowerThird db lowerThird web with
      | (_, lowerThird1, web1) =>
        let web2 := web1.log (.LowerThirdNotify lowerThird1)
        let web3 := { web2 with AudienceDisplayScreen := "lowerThird" }
        let web4 := web3.log (.SetAudienceDisplayScreen "lowerThird")
        (.next, web4.log .AudienceDisplayNotify, ws)
  else if messageType = "hideLowerThird" then
    match data.decodeLowerThird with
    | .error err => (.next, web, (ws.WriteError err).2)
    | .ok lowerThird =>
      let web1 := (saveLowerThird db lowerThird web).2.2
      let web2 := { web1 with AudienceDisplayScreen := "blank" }
      let web3 := web2.log (.SetAudienceDisplayScreen "blank")
      (.next, web3.log .AudienceDisplayNotify, ws)
  else if messageType = "reorderLowerThird" then
    match data.decodeReorderArgs with
    | .error err => (.next, web, (ws.WriteError err).2)
    | .ok args =>
      match reorderLowerThird db args.Id args.MoveUp web with
      | (.panicked p, web1) => (.panic p, web1, ws)
      | (.returned (some err), web1) => (.next, web1, (ws.WriteError err).2)
      | (.returned none, web1) => writeReload web1 ws
  else
    (.next, web, (ws.WriteError ("Invalid message type '" ++ messageType ++ "'.")).2)

/-- One result of `websocket.Read()` (line 59). -/
inductive ReadResult where
  | message (messageType : String) (data : Data)
  | eof
  | failure (err : String)

/-- Where the handler stands once the given reads are used up. -/
inductive Session where
  | awaiting
  | closed
  | panicked (p : Panic)
  deriving DecidableEq, Repr

/-- Lines 58-139: the command loop, run over the results of the successive reads. When the
reads are used up the handler is blocked in `Read`, the session still open. -/
def commandLoop {σ : Type} (db : Database σ) :
    List ReadResult → Web σ → Websocket → Session × Web σ × Websocket
  | [], web, ws => (.awaiting, web, ws)
  | .eof :: _, web, ws => (.closed, web, ws)
  | .failure _ :: _, web, ws => (.closed, web, ws)
  | .message messageType data :: rest, web, ws =>
    match handleMessage db messageType data web ws with
    | (.next, web1, ws1) => commandLoop db rest web1 ws1
    | (.exit, web1, ws1) => (.closed, web1, ws1)
    | (.panic p, web1, ws1) => (.panicked p, web1, ws1)

/-- The messages written between two states of the connection. -/
def sentBetween (before after : Websocket) : List Message :=
  after.written.drop before.written.length

/-! ## The record store -/

/-- Modelled from the spec: the Record Store behind `web.arena.Database` (package `model`,
outside the sources): durable storage of overlay records keyed by numeric id. The state is the
list of stored rows. -/
structure Store where
  rows : List LowerThird
  deriving DecidableEq, Repr

/-- The order of the full-list fetch: ascending `DisplayOrder`. -/
def byDisplayOrder (a b : LowerThird) : Prop := a.DisplayOrder ≤ b.DisplayOrder

instance : DecidableRel byDisplayOrder :=
  fun a b => inferInstanceAs (Decidable (a.DisplayOrder ≤ b.DisplayOrder))

/-- Modelled from the spec: fetch-by-id, nil if absent. -/
def Store.getById (s : Store) (id : Int) : Option LowerThird :=
  s.rows.find? (fun r => decide (r.Id = id))

/-- Modelled from the spec: the full-list fetch returns the records in ascending
`displayOrder`; ties keep the stored order. -/
def Store.getAll (s : Store) : List LowerThird :=
  s.rows.insertionSort byDisplayOrder

/-- Modelled from the spec: the id given to the next created record, above every stored id. -/
def Store.freshId (s : Store) : Int :=
  (s.rows.map (fun r => r.Id)).foldr max 0 + 1

/-- Modelled from the spec: create stores the record under a fresh, store-assigned id and
writes that id into the record. -/
def Store.create (s : Store) (r : LowerThird) : LowerThird × Store :=
  ({ r with Id := s.freshId }, ⟨s.rows ++ [{ r with Id := s.freshId }]⟩)

/-- Modelled from the spec: save replaces the stored record of the same id, every field
overwritten. -/
def Store.save (s : Store) (r : LowerThird) : Store :=
  ⟨s.rows.map (fun x => if x.Id = r.Id then r else x)⟩

/-- Modelled from the spec: delete removes the stored record of the same id. -/
def Store.delete (s : Store) (r : LowerThird) : Store :=
  ⟨s.rows.filter (fun x => decide (x.Id ≠ r.Id))⟩

/-- Modelled from the spec: the Record Store as a `Database`, every call succeeding. -/
def storeDb : Database Store where
  GetLowerThirdById := fun s id => (.ok (s.getById id), s)
  GetAllLowerThirds := fun s => (.ok s.getAll, s)
  CreateLowerThird := fun s r => (none, (s.create r).1, (s.create r).2)
  SaveLowerThird := fun s r => (none, r, s.save r)
  DeleteLowerThird := fun s r => (none, r, s.delete r)

/-- A database whose every call fails with the given error, as when the storage is
unreachable. -/
def failingDb (err : String) : Database Unit where
  GetLowerThirdById := fun s _ => (.error err, s)
  GetAllLowerThirds := fun s => (.error err, s)
  CreateLowerThird := fun s r => (some err, r, s)
  SaveLowerThird := fun s r => (some err, r, s)
  DeleteLowerThird := fun s r => (some err, r, s)

/-- A state of the handlers over the record store, nothing recorded yet. -/
def webOf (rows : List LowerThird) : Web Store :=
  { Database := ⟨rows⟩, AudienceDisplayScreen := "blank", effects := [] }

/-- The display orders of the stored records, by id, in stored order. -/
def ordersById (s : Store) : List (Int × Int) :=
  s.rows.map (fun r => (r.Id, r.DisplayOrder))

/-- The record `r` after a reorder that exchanged the display orders of `x` and `y`. -/
def exchanged (x y r : LowerThird) : LowerThird :=
  if r.Id = x.Id then { r with DisplayOrder := y.DisplayOrder }
  else if r.Id = y.Id then { r with DisplayOrder := x.DisplayOrder }
  else r

/-- Strictly ascending `DisplayOrder`. -/
def strictlyByDisplayOrder (a b : LowerThird) : Prop := a.DisplayOrder < b.DisplayOrder

/-! ## Sample records -/

/-- Sample record A of the scenario. -/
def recA : LowerThird := ⟨1, "A", "a", 1⟩
/-- Sample record B of the scenario. -/
def recB : LowerThird := ⟨2, "B", "b", 2⟩
/-- Sample record C of the scenario. -/
def recC : LowerThird := ⟨3, "C", "c", 3⟩

/-! ## The command loop: which messages go out -/

/-- What a write adds to the record of written messages. -/
theorem sentBetween_write (ws : Websocket) (messageType : String) (data : Option String) :
    sentBetween ws (ws.Write messageType data).2 = [⟨messageType, data⟩] := by
  simp [sentBetween, Websocket.Write]

/-- Nothing is written between a state and itself. -/
theorem sentBetween_self (ws : Websocket) : sentBetween ws ws = [] := by
  simp [sentBetween]

/-- C5: one pass of the loop body on a `showLowerThird` or a `hideLowerThird` command, whatever
the payload and whatever the database does, writes no `reload` message: it writes the decode
error when the payload does not decode and nothing at all otherwise, and the loop goes on. -/
theorem show_hide_never_reload {σ : Type} (db : Database σ) (data : Data) (web : Web σ)
    (ws : Websocket) :
    (Message.reload ∉ sentBetween ws (handleMessage db "showLowerThird" data web ws).2.2
      ∧ sentBetween ws (handleMessage db "showLowerThird" data web ws).2.2
          = (match data.decodeLowerThird with
              | .error err => [⟨"error", some err⟩]
              | .ok _ => [])
      ∧ (handleMessage db "showLowerThird" data web ws).1 = .next)
    ∧ (Message.reload ∉ sentBetween ws (handleMessage db "hideLowerThird" data web ws).2.2
      ∧ sentBetween ws (handleMessage db "hideLowerThird" data web ws).2.2
          = (match data.decodeLowerThird with
              | .error err => [⟨"error", some err⟩]
              | .ok _ => [])
      ∧ (handleMessage db "hideLowerThird" data web ws).1 = .next) := by
  have hs : ¬ ("showLowerThird" = "saveLowerThird") := by decide
  have hd : ¬ ("showLowerThird" = "deleteLowerThird") := by decide
  have hs2 : ¬ ("hideLowerThird" = "saveLowerThird") := by decide
  have hd2 : ¬ ("hideLowerThird" = "deleteLowerThird") := by decide
  have hh2 : ¬ ("hideLowerThird" = "showLowerThird") := by decide
  constructor
  · cases hdec : data.decodeLowerThird with
    | error err =>
      simp [handleMessage, hs, hd, hdec, Websocket.WriteError, sentBetween_write, Message.reload]
    | ok r =>
      simp [handleMessage, hs, hd, hdec, sentBetween_self]
  · cases hdec : data.decodeLowerThird with
    | error err =>
      simp [handleMessage, hs2, hd2, hh2, hdec, Websocket.WriteError, sentBetween_write,
        Message.reload]
    | ok r =>
      simp [handleMessage, hs2, hd2, hh2, hdec, sentBetween_self]

/-- C7: for a message type outside the five recognised ones, one pass of the loop body writes
exactly one error message, `Invalid message type '<type>'.`, and no reload, leaves the database,
the display screen and the record of effects as they were, and goes back to the top of the loop.
The session stays open: after that command alone the handler is awaiting the next read, with the
arena state untouched; a command read next on the same connection is handled by the loop body
from that same arena state, and the session then goes on, closes or panics as that command
decides; and the loop run on the unrecognised command followed by `rest` is the loop run on
`rest` from the same arena state, with only the connection one write further. -/
theorem unknown_type_reports_and_continues {σ : Type} (db : Database σ) (messageType : String)
    (data : Data) (web : Web σ) (ws : Websocket) (nextType : String) (nextData : Data)
    (rest : List ReadResult)
    (hsave : messageType ≠ "saveLowerThird") (hdelete : messageType ≠ "deleteLowerThird")
    (hshow : messageType ≠ "showLowerThird") (hhide : messageType ≠ "hideLowerThird")
    (hreorder : messageType ≠ "reorderLowerThird") :
    handleMessage db messageType data web ws
        = (.next, web, (ws.WriteError ("Invalid message type '" ++ messageType ++ "'.")).2)
    ∧ sentBetween ws (handleMessage db messageType data web ws).2.2
        = [⟨"error", some ("Invalid message type '" ++ messageType ++ "'.")⟩]
    ∧ Message.reload ∉ sentBetween ws (handleMessage db messageType data web ws).2.2
    ∧ commandLoop db [.message messageType data] web ws
        = (.awaiting, web, (ws.WriteError ("Invalid message type '" ++ messageType ++ "'.")).2)
    ∧ commandLoop db [.message messageType data, .eof] web ws
        = (.closed, web, (ws.WriteError ("Invalid message type '" ++ messageType ++ "'.")).2)
    ∧ commandLoop db (.message messageType data :: .message nextType nextData :: rest) web ws
        = (match handleMessage db nextType nextData web
              (ws.WriteError ("Invalid message type '" ++ messageType ++ "'.")).2 with
            | (.next, web1, ws1) => commandLoop db rest web1 ws1
            | (.exit, web1, ws1) => (.closed, web1, ws1)
            | (.panic p, web1, ws1) => (.panicked p, web1, ws1))
    ∧ commandLoop db (.message messageType data :: rest) web ws
        = commandLoop db rest web
            (ws.WriteError ("Invalid message type '" ++ messageType ++ "'.")).2 := by
  have h : handleMessage db messageType data web ws
      = (.next, web, (ws.WriteError ("Invalid message type '" ++ messageType ++ "'.")).2) := by
    simp [handleMessage, hsave, hdelete, hshow, hhide, hreorder]
  refine ⟨h, ?_, ?_, ?_, ?_, ?_, ?_⟩
  · rw [h]; simp [Websocket.WriteError, sentBetween_write]
  · rw [h]; simp [Websocket.WriteError, sentBetween_write, Message.reload]
  · simp [commandLoop, h]
  · simp [commandLoop, h]
  · simp only [commandLoop, h]
  · simp [commandLoop, h]

/-- Witness for C7: the type `renameLowerThird` on an empty store, followed on the same
connection by a `saveLowerThird` command and the end of the stream. Evaluated, the session is
awaiting after the unrecognised command alone, and with the save and the end of the stream
after it the record is created, the messages written are the error and then the reload, and the
session closes with the stream. -/
theorem unknown_type_reports_and_continues_witness :
    ((commandLoop storeDb [.message "renameLowerThird" ⟨.error "no", .error "no"⟩]
          (webOf []) ⟨[], []⟩).1 = .awaiting
      ∧ (commandLoop storeDb
          [.message "renameLowerThird" ⟨.error "no", .error "no"⟩,
           .message "saveLowerThird" ⟨.ok recA, .error "no"⟩, .eof]
          (webOf []) ⟨[], []⟩).1 = .closed
      ∧ (commandLoop storeDb
          [.message "renameLowerThird" ⟨.error "no", .error "no"⟩,
           .message "saveLowerThird" ⟨.ok recA, .error "no"⟩, .eof]
          (webOf []) ⟨[], []⟩).2.1.Database = ⟨[recA]⟩
      ∧ (commandLoop storeDb
          [.message "renameLowerThird" ⟨.error "no", .error "no"⟩,
           .message "saveLowerThird" ⟨.ok recA, .error "no"⟩, .eof]
          (webOf []) ⟨[], []⟩).2.2.written
          = [⟨"error", some "Invalid message type 'renameLowerThird'."⟩, Message.reload])
    ∧ (handleMessage storeDb "renameLowerThird" ⟨.error "no", .error "no"⟩ (webOf []) ⟨[], []⟩
        = (.next, webOf [],
            (Websocket.WriteError ⟨[], []⟩
              ("Invalid message type '" ++ "renameLowerThird" ++ "'.")).2)
      ∧ sentBetween ⟨[], []⟩
            (handleMessage storeDb "renameLowerThird" ⟨.error "no", .error "no"⟩ (webOf [])
              ⟨[], []⟩).2.2
          = [⟨"error", some ("Invalid message type '" ++ "renameLowerThird" ++ "'.")⟩]
      ∧ Message.reload ∉ sentBetween ⟨[], []⟩
            (handleMessage storeDb "renameLowerThird" ⟨.error "no", .error "no"⟩ (webOf [])
              ⟨[], []⟩).2.2
      ∧ commandLoop storeDb [.message "renameLowerThird" ⟨.error "no", .error "no"⟩]
            (webOf []) ⟨[], []⟩
          = (.awaiting, webOf [],
              (Websocket.WriteError ⟨[], []⟩
                ("Invalid message type '" ++ "renameLowerThird" ++ "'.")).2)
      ∧ commandLoop storeDb [.message "renameLowerThird" ⟨.error "no", .error "no"⟩, .eof]
            (webOf []) ⟨[], []⟩
          = (.closed, webOf [],
              (Websocket.WriteError ⟨[], []⟩
                ("Invalid message type '" ++ "renameLowerThird" ++ "'.")).2)
      ∧ commandLoop storeDb
            (.message "renameLowerThird" ⟨.error "no", .error "no"⟩ ::
              .message "saveLowerThird" ⟨.ok recA, .error "no"⟩ :: [.eof])
            (webOf []) ⟨[], []⟩
          = (match handleMessage storeDb "saveLowerThird" ⟨.ok recA, .error "no"⟩ (webOf [])
                (Websocket.WriteError ⟨[], []⟩
                  ("Invalid message type '" ++ "renameLowerThird" ++ "'.")).2 with
              | (.next, web1, ws1) => commandLoop storeDb [.eof] web1 ws1
              | (.exit, web1, ws1) => (.closed, web1, ws1)
              | (.panic p, web1, ws1) => (.panicked p, web1, ws1))
      ∧ commandLoop storeDb (.message "renameLowerThird" ⟨.error "no", .error "no"⟩ :: [.eof])
            (webOf []) ⟨[], []⟩
          = commandLoop storeDb [.eof] (webOf [])
              (Websocket.WriteError ⟨[], []⟩
                ("Invalid message type '" ++ "renameLowerThird" ++ "'.")).2) :=
  ⟨by decide,
    unknown_type_reports_and_continues storeDb "renameLowerThird" ⟨.error "no", .error "no"⟩
      (webOf []) ⟨[], []⟩ "saveLowerThird" ⟨.ok recA, .error "no"⟩ [.eof]
      (by decide) (by decide) (by decide) (by decide) (by decide)⟩

/-- The reload step leaves the arena state alone and performs exactly the one write. -/
theorem writeReload_snd {σ : Type} (web : Web σ) (ws : Websocket) :
    (writeReload web ws).2 = (web, (ws.Write "reload" none).2) := by
  unfold writeReload
  rcases hw : ws.Write "reload" none with ⟨e, ws1⟩
  cases e <;> rfl

/-- A `saveLowerThird` command whose payload decodes writes the reload message whatever
`saveLowerThird` returned: line 77 drops the returned error. -/
theorem save_command_reloads_whatever_the_store_does {σ : Type} (db : Database σ) (data : Data)
    (r : LowerThird) (web : Web σ) (ws : Websocket) (hdec : data.decodeLowerThird = .ok r) :
    sentBetween ws (handleMessage db "saveLowerThird" data web ws).2.2 = [Message.reload] := by
  simp [handleMessage, hdec, writeReload_snd, sentBetween_write, Message.reload]

/-- C4, at the failing input: the database fails every call, `saveLowerThird` returns that
error, and the pass of the loop body on the `saveLowerThird` command still writes exactly
one message, the reload, and no error message. -/
theorem save_command_reloads_after_store_error :
    (saveLowerThird (failingDb "database is locked") recA ⟨(), "blank", []⟩).1
        = some "database is locked"
    ∧ (handleMessage (failingDb "database is locked") "saveLowerThird"
          ⟨.ok recA, .error "not reorder arguments"⟩ ⟨(), "blank", []⟩ ⟨[], []⟩).2.2.written
        = [Message.reload]
    ∧ (handleMessage (failingDb "database is locked") "saveLowerThird"
          ⟨.ok recA, .error "not reorder arguments"⟩ ⟨(), "blank", []⟩ ⟨[], []⟩).1 = .next := by
  decide

/-- C3, at the failing input: id 7 is absent from the store of A, B and C; fetch-by-id gives
nil without error, and `reorderLowerThird` panics on the nil pointer at the first element of
the scan instead of returning an error. The store is not written. -/
theorem reorder_absent_id_panics :
    (webOf [recA, recB, recC]).Database.getById 7 = none
    ∧ (reorderLowerThird storeDb 7 true (webOf [recA, recB, recC])).1
        = .panicked .nilPointerDereference
    ∧ (reorderLowerThird storeDb 7 false (webOf [recA, recB, recC])).1
        = .panicked .nilPointerDereference
    ∧ (reorderLowerThird storeDb 7 true (webOf [recA, recB, recC])).2.effects
        = [.GetLowerThirdById 7, .GetAllLowerThirds]
    ∧ (reorderLowerThird storeDb 7 true (webOf [recA, recB, recC])).2.Database
        = ⟨[recA, recB, recC]⟩ := by
  decide

/-! ## Save-or-create on the record store -/

/-- Every element of a list of integers is at most the running maximum. -/
theorem le_foldr_max (l : List Int) (a : Int) (h : a ∈ l) : a ≤ l.foldr max 0 := by
  induction l with
  | nil => cases h
  | cons b t ih =>
    rcases List.mem_cons.1 h with rfl | h
    · exact le_max_left _ _
    · exact le_trans (ih h) (le_max_right _ _)

/-- The fresh id is above every stored id. -/
theorem Store.lt_freshId (s : Store) (x : LowerThird) (h : x ∈ s.rows) : x.Id < s.freshId := by
  have := le_foldr_max (s.rows.map (fun r => r.Id)) x.Id (List.mem_map_of_mem _ h)
  unfold Store.freshId
  omega

/-- Fetch-by-id finds nothing exactly when no stored record carries the id. -/
theorem Store.getById_eq_none (s : Store) (id : Int) :
    s.getById id = none ↔ ∀ x ∈ s.rows, x.Id ≠ id := by
  simp [Store.getById, List.find?_eq_none]

/-- Whatever the database, when the fetch of `saveLowerThird` fails the error is returned and
nothing is written. -/
theorem saveLowerThird_fetch_error {σ : Type} (db : Database σ) (r : LowerThird) (web : Web σ)
    (err : String) (s : σ) (hget : db.GetLowerThirdById web.Database r.Id = (.error err, s)) :
    saveLowerThird db r web = (some err, r, (web.log (.GetLowerThirdById r.Id)).setDatabase s) := by
  simp [saveLowerThird, hget]

/-- C8: on the record store, `saveLowerThird r` returns no error and performs exactly one store
write after its fetch: `CreateLowerThird r` when fetch-by-id of `r.Id` finds no stored record,
`SaveLowerThird r` otherwise. After a create the store holds one more record, `r` under the
store-assigned id, which no stored record carried; after an update every stored record of id
`r.Id` is `r`, field for field, and every other stored record is unchanged. -/
theorem saveLowerThird_save_or_create (r : LowerThird) (web : Web Store) :
    (saveLowerThird storeDb r web).1 = none
    ∧ (saveLowerThird storeDb r web).2.2.effects
        = web.effects ++ [.GetLowerThirdById r.Id,
            if (web.Database.getById r.Id).isNone then .CreateLowerThird r
            else .SaveLowerThird r]
    ∧ ((saveLowerThird storeDb r web).2.2.effects.drop web.effects.length).filter Effect.isWrite
        = [if (web.Database.getById r.Id).isNone then .CreateLowerThird r else .SaveLowerThird r]
    ∧ (saveLowerThird storeDb r web).2.2.Database.rows
        = (if (web.Database.getById r.Id).isNone then
            web.Database.rows ++ [{ r with Id := web.Database.freshId }]
          else web.Database.rows.map (fun x => if x.Id = r.Id then r else x))
    ∧ (∀ x ∈ web.Database.rows, x.Id ≠ web.Database.freshId) := by
  have hfresh : ∀ x ∈ web.Database.rows, x.Id ≠ web.Database.freshId :=
    fun x hx => ne_of_lt (web.Database.lt_freshId x hx)
  cases hget : web.Database.getById r.Id with
  | none =>
    simp [saveLowerThird, storeDb, hget, Web.log, Web.setDatabase, Store.create,
      Effect.isWrite]
    exact hfresh
  | some old =>
    simp [saveLowerThird, storeDb, hget, Web.log, Web.setDatabase, Store.save,
      Effect.isWrite]
    exact hfresh

/-- C9: on the record store, a `showLowerThird` command whose payload decodes to a record `r`
whose id no stored record carries performs, in this order: the fetch, the creation of `r`, the
content notification with the created record under its store-assigned id, the assignment of
`lowerThird` to the audience display screen, and the screen notification. The store ends with
the created record added and the display screen is `lowerThird`. -/
theorem show_unmatched_creates_then_notifies (data : Data) (r : LowerThird) (web : Web Store)
    (ws : Websocket) (hdec : data.decodeLowerThird = .ok r)
    (habsent : ∀ x ∈ web.Database.rows, x.Id ≠ r.Id) :
    handleMessage storeDb "showLowerThird" data web ws
        = (.next,
            { Database := ⟨web.Database.rows ++ [{ r with Id := web.Database.freshId }]⟩,
              AudienceDisplayScreen := "lowerThird",
              effects := web.effects ++
                [.GetLowerThirdById r.Id, .CreateLowerThird r,
                 .LowerThirdNotify { r with Id := web.Database.freshId },
                 .SetAudienceDisplayScreen "lowerThird", .AudienceDisplayNotify] },
            ws)
    ∧ (∀ x ∈ web.Database.rows, x.Id ≠ web.Database.freshId) := by
  have hget : web.Database.getById r.Id = none := (web.Database.getById_eq_none r.Id).2 habsent
  have hs : ¬ ("showLowerThird" = "saveLowerThird") := by decide
  have hd : ¬ ("showLowerThird" = "deleteLowerThird") := by decide
  refine ⟨?_, fun x hx => ne_of_lt (web.Database.lt_freshId x hx)⟩
  simp [handleMessage, hs, hd, hdec, saveLowerThird, storeDb, hget, Web.log, Web.setDatabase,
    Store.create]

/-- Witness for C9: showing a record of id 0 on the store of A and B. -/
theorem show_unmatched_creates_then_notifies_witness :
    handleMessage storeDb "showLowerThird" ⟨.ok ⟨0, "T", "t", 5⟩, .error "no"⟩
        (webOf [recA, recB]) ⟨[], []⟩
        = (.next,
            { Database := ⟨(webOf [recA, recB]).Database.rows ++
                [{ (⟨0, "T", "t", 5⟩ : LowerThird) with Id := (webOf [recA, recB]).Database.freshId }]⟩,
              AudienceDisplayScreen := "lowerThird",
              effects := (webOf [recA, recB]).effects ++
                [.GetLowerThirdById (⟨0, "T", "t", 5⟩ : LowerThird).Id,
                 .CreateLowerThird ⟨0, "T", "t", 5⟩,
                 .LowerThirdNotify
                   { (⟨0, "T", "t", 5⟩ : LowerThird) with Id := (webOf [recA, recB]).Database.freshId },
                 .SetAudienceDisplayScreen "lowerThird", .AudienceDisplayNotify] },
            ⟨[], []⟩)
    ∧ (∀ x ∈ (webOf [recA, recB]).Database.rows, x.Id ≠ (webOf [recA, recB]).Database.freshId) :=
  show_unmatched_creates_then_notifies ⟨.ok ⟨0, "T", "t", 5⟩, .error "no"⟩ ⟨0, "T", "t", 5⟩
    (webOf [recA, recB]) ⟨[], []⟩ rfl (by decide)

/-! ## Reordering on the record store -/

/-- The full-list fetch is a rearrangement of the stored rows. -/
theorem Store.getAll_perm (s : Store) : s.getAll.Perm s.rows :=
  List.perm_insertionSort _ _

/-- The full-list fetch is ascending in `DisplayOrder`. -/
theorem Store.getAll_sorted (s : Store) : s.getAll.Sorted byDisplayOrder := by
  have : IsTotal LowerThird byDisplayOrder := ⟨fun a b => Int.le_total _ _⟩
  have : IsTrans LowerThird byDisplayOrder := ⟨fun a b c hab hbc => Int.le_trans hab hbc⟩
  exact List.sorted_insertionSort _ _

/-- With unique ids, so are the ids of the full-list fetch. -/
theorem Store.getAll_ids_nodup (s : Store) (hids : (s.rows.map (fun r => r.Id)).Nodup) :
    (s.getAll.map (fun r => r.Id)).Nodup :=
  ((s.getAll_perm.map _).nodup_iff).2 hids

/-- With unique ids, fetch-by-id of a stored record's id returns that record. -/
theorem find_of_mem_of_ids_nodup (x : LowerThird) :
    ∀ l : List LowerThird, (l.map (fun r => r.Id)).Nodup → x ∈ l →
      l.find? (fun r => decide (r.Id = x.Id)) = some x
  | [], _, h => by cases h
  | a :: t, hn, h => by
    rw [List.map_cons, List.nodup_cons] at hn
    rcases List.mem_cons.1 h with rfl | h
    · simp
    · have hne : a.Id ≠ x.Id := fun e => hn.1 (e ▸ List.mem_map_of_mem _ h)
      simp [List.find?_cons, hne, find_of_mem_of_ids_nodup x t hn.2 h]

/-- With unique ids, records at different positions carry different ids. -/
theorem id_ne_of_getElem? (l : List LowerThird) (hids : (l.map (fun r => r.Id)).Nodup)
    (i j : Nat) (x y : LowerThird) (hi : l[i]? = some x) (hj : l[j]? = some y) (hij : i ≠ j) :
    x.Id ≠ y.Id := by
  intro h
  have hx : (l.map (fun r => r.Id))[i]? = some x.Id := by simp [hi]
  have hy : (l.map (fun r => r.Id))[j]? = some x.Id := by simp [hj, h]
  have hil : i < (l.map (fun r => r.Id)).length := (List.getElem?_eq_some.1 hx).1
  have hjl : j < (l.map (fun r => r.Id)).length := (List.getElem?_eq_some.1 hy).1
  rcases Nat.lt_or_gt_of_ne hij with h1 | h1
  · exact (List.nodup_iff_getElem?_ne_getElem?.1 hids i j h1 hjl) (hx.trans hy.symm)
  · exact (List.nodup_iff_getElem?_ne_getElem?.1 hids j i h1 hil) (hy.trans hx.symm)

/-- With unique ids, the scan for the record at position `i` ends with `lowerThirdIndex = i`. -/
theorem scanIndex_of_getElem? (x : LowerThird) :
    ∀ (l : List LowerThird) (i k : Nat), (l.map (fun r => r.Id)).Nodup → l[i]? = some x →
      scanIndex (some x) l k = .ok ((k + i : Nat) : Int)
  | [], i, k, _, h => by simp at h
  | a :: t, 0, k, _, h => by
    simp at h
    subst h
    simp [scanIndex]
  | a :: t, i + 1, k, hn, h => by
    rw [List.map_cons, List.nodup_cons] at hn
    have hx : x ∈ t := List.getElem?_mem (by simpa using h)
    have hne : a.Id ≠ x.Id := fun e => hn.1 (e ▸ List.mem_map_of_mem _ hx)
    have ih := scanIndex_of_getElem? x t i (k + 1) hn.2 (by simpa using h)
    simp only [scanIndex, hne, if_false, ih]
    congr 2
    omega

/-- Saving the two exchanged records rewrites the rows as `exchanged` describes. -/
theorem save_save_eq_map_exchanged (rows : List LowerThird)
    (hids : (rows.map (fun r => r.Id)).Nodup) (x y : LowerThird) (hx : x ∈ rows) (hy : y ∈ rows)
    (hne : x.Id ≠ y.Id) :
    ((Store.mk rows).save { x with DisplayOrder := y.DisplayOrder }).save
        { y with DisplayOrder := x.DisplayOrder }
      = ⟨rows.map (exchanged x y)⟩ := by
  simp only [Store.save, List.map_map, Store.mk.injEq]
  apply List.map_congr_left
  intro r hr
  by_cases h1 : r.Id = x.Id
  · have : r = x := List.inj_on_of_nodup_map hids hr hx h1
    subst this
    simp [exchanged, hne]
  · by_cases h2 : r.Id = y.Id
    · have : r = y := List.inj_on_of_nodup_map hids hr hy h2
      subst this
      simp [exchanged, h1]
    · simp [exchanged, h1, h2]

/-- The successful path of `reorderLowerThird` on the record store: the calls made and the rows
left behind. -/
theorem reorder_store_exchange (web : Web Store) (i j : Nat)
    (moveUp : Bool) (x y : LowerThird)
    (hids : (web.Database.rows.map (fun r => r.Id)).Nodup)
    (hi : web.Database.getAll[i]? = some x) (hj : web.Database.getAll[j]? = some y)
    (hdir : (j : Int) = stepIndex i moveUp) :
    reorderLowerThird storeDb x.Id moveUp web
      = (.returned none,
          { Database := ⟨web.Database.rows.map (exchanged x y)⟩,
            AudienceDisplayScreen := web.AudienceDisplayScreen,
            effects := web.effects ++
              [.GetLowerThirdById x.Id, .GetAllLowerThirds, .GetLowerThirdById y.Id,
               .SaveLowerThird { x with DisplayOrder := y.DisplayOrder },
               .SaveLowerThird { y with DisplayOrder := x.DisplayOrder }] }) := by
  have hall := web.Database.getAll_ids_nodup hids
  have hxm : x ∈ web.Database.rows := web.Database.getAll_perm.subset (List.getElem?_mem hi)
  have hym : y ∈ web.Database.rows := web.Database.getAll_perm.subset (List.getElem?_mem hj)
  have hgx : web.Database.getById x.Id = some x := find_of_mem_of_ids_nodup x _ hids hxm
  have hgy : web.Database.getById y.Id = some y := find_of_mem_of_ids_nodup y _ hids hym
  have hscan := scanIndex_of_getElem? x web.Database.getAll i 0 hall hi
  have hij : i ≠ j := by
    rintro rfl
    unfold stepIndex at hdir
    split at hdir <;> omega
  have hne : x.Id ≠ y.Id := id_ne_of_getElem? _ hall i j x y hi hj hij
  have hjl : j < web.Database.getAll.length := (List.getElem?_eq_some.1 hj).1
  have hguard : ¬ (stepIndex ((0 + i : Nat) : Int) moveUp < 0
      ∨ stepIndex ((0 + i : Nat) : Int) moveUp = (web.Database.getAll.length : Int)) := by
    rw [Nat.zero_add, ← hdir]
    omega
  have hsave := save_save_eq_map_exchanged web.Database.rows hids x y hxm hym hne
  have hidx : (stepIndex ((0 + i : Nat) : Int) moveUp).toNat = j := by
    rw [Nat.zero_add, ← hdir]
    simp
  simp only [reorderLowerThird, storeDb, Web.log, Web.setDatabase, hgx, hscan, hguard, if_false,
    hidx, hj, hgy, swapAndSave, hsave, List.append_assoc, List.singleton_append,
    List.cons_append, List.nil_append]

/-- The exchange keeps every id and every display text. -/
theorem exchanged_fields (x y r : LowerThird) :
    (exchanged x y r).Id = r.Id ∧ (exchanged x y r).TopText = r.TopText
      ∧ (exchanged x y r).BottomText = r.BottomText := by
  unfold exchanged
  split
  · exact ⟨rfl, rfl, rfl⟩
  · split <;> exact ⟨rfl, rfl, rfl⟩

/-- C1: on the record store with unique ids, let `x` be the record at position `i` of the
full-list fetch and `y` the record at the neighbour position `j` (`i - 1` for `moveUp`, `i + 1`
otherwise). Then `reorderLowerThird x.Id moveUp` returns no error, and the stored rows afterwards
are the rows before with `x` and `y` having exchanged their `DisplayOrder`: as many rows, each
with the id and texts it had, `x` with the order of `y`, `y` with the order of `x`, every other
row as it was. The writes are the two saves. -/
theorem reorderLowerThird_exchanges_display_orders (web : Web Store) (i j : Nat)
    (moveUp : Bool) (x y : LowerThird)
    (hids : (web.Database.rows.map (fun r => r.Id)).Nodup)
    (hi : web.Database.getAll[i]? = some x) (hj : web.Database.getAll[j]? = some y)
    (hdir : (j : Int) = stepIndex i moveUp) :
    (reorderLowerThird storeDb x.Id moveUp web).1 = .returned none
    ∧ (reorderLowerThird storeDb x.Id moveUp web).2.Database.rows
        = web.Database.rows.map (exchanged x y)
    ∧ (reorderLowerThird storeDb x.Id moveUp web).2.Database.rows.length
        = web.Database.rows.length
    ∧ (∀ r, (exchanged x y r).Id = r.Id ∧ (exchanged x y r).TopText = r.TopText
        ∧ (exchanged x y r).BottomText = r.BottomText)
    ∧ exchanged x y x = { x with DisplayOrder := y.DisplayOrder }
    ∧ exchanged x y y = { y with DisplayOrder := x.DisplayOrder }
    ∧ (∀ r, r.Id ≠ x.Id → r.Id ≠ y.Id → exchanged x y r = r)
    ∧ (reorderLowerThird storeDb x.Id moveUp web).2.effects.filter Effect.isWrite
        = web.effects.filter Effect.isWrite ++
            [.SaveLowerThird { x with DisplayOrder := y.DisplayOrder },
             .SaveLowerThird { y with DisplayOrder := x.DisplayOrder }]
    ∧ (reorderLowerThird storeDb x.Id moveUp web).2.AudienceDisplayScreen
        = web.AudienceDisplayScreen := by
  have hij : i ≠ j := by
    rintro rfl
    unfold stepIndex at hdir
    split at hdir <;> omega
  have hne : x.Id ≠ y.Id :=
    id_ne_of_getElem? _ (web.Database.getAll_ids_nodup hids) i j x y hi hj hij
  rw [reorder_store_exchange web i j moveUp x y hids hi hj hdir]
  refine ⟨rfl, rfl, by simp, exchanged_fields x y, by simp [exchanged], ?_, ?_, ?_, rfl⟩
  · simp [exchanged, hne.symm]
  · intro r h1 h2
    simp [exchanged, h1, h2]
  · simp [List.filter_append, Effect.isWrite]

/-- Witness for C1, the scenario of the spec: A(order 1), B(order 2), C(order 3), and B moved
up. -/
theorem reorderLowerThird_exchanges_display_orders_witness :
    ordersById (reorderLowerThird storeDb recB.Id true (webOf [recA, recB, recC])).2.Database
        = [(1, 2), (2, 1), (3, 3)]
    ∧ (reorderLowerThird storeDb recB.Id true (webOf [recA, recB, recC])).1 = .returned none
    ∧ (reorderLowerThird storeDb recB.Id true (webOf [recA, recB, recC])).2.Database.rows
        = (webOf [recA, recB, recC]).Database.rows.map (exchanged recB recA) :=
  ⟨by decide,
    (reorderLowerThird_exchanges_display_orders (webOf [recA, recB, recC]) 1 0 true recB recA
      (by decide) (by decide) (by decide) (by decide)).1,
    (reorderLowerThird_exchanges_display_orders (webOf [recA, recB, recC]) 1 0 true recB recA
      (by decide) (by decide) (by decide) (by decide)).2.1⟩

/-- C2: on a non-empty record store with unique ids, moving the first record of the full-list
fetch up and moving the last one down both return the error `Already at the limit.`; the calls
made are the two fetches, no write, and the store and the display screen stay as they were. -/
theorem reorderLowerThird_at_limit (web : Web Store) (first last : LowerThird)
    (hids : (web.Database.rows.map (fun r => r.Id)).Nodup)
    (hfirst : web.Database.getAll.head? = some first)
    (hlast : web.Database.getAll.getLast? = some last) :
    reorderLowerThird storeDb first.Id true web
        = (.returned (some "Already at the limit."),
            { web with effects := web.effects ++ [.GetLowerThirdById first.Id, .GetAllLowerThirds] })
    ∧ reorderLowerThird storeDb last.Id false web
        = (.returned (some "Already at the limit."),
            { web with effects := web.effects ++ [.GetLowerThirdById last.Id, .GetAllLowerThirds] })
    := by
  have hall := web.Database.getAll_ids_nodup hids
  have h0 : web.Database.getAll[0]? = some first := by
    rw [← hfirst, List.head?_eq_getElem?]
  have hn : web.Database.getAll[web.Database.getAll.length - 1]? = some last := by
    rw [← hlast, List.getLast?_eq_getElem?]
  have hpos : web.Database.getAll.length - 1 < web.Database.getAll.length :=
    (List.getElem?_eq_some.1 hn).1
  have hfm : first ∈ web.Database.rows := web.Database.getAll_perm.subset (List.getElem?_mem h0)
  have hlm : last ∈ web.Database.rows := web.Database.getAll_perm.subset (List.getElem?_mem hn)
  have hgf : web.Database.getById first.Id = some first := find_of_mem_of_ids_nodup first _ hids hfm
  have hgl : web.Database.getById last.Id = some last := find_of_mem_of_ids_nodup last _ hids hlm
  have hs0 := scanIndex_of_getElem? first web.Database.getAll 0 0 hall h0
  have hsn := scanIndex_of_getElem? last web.Database.getAll _ 0 hall hn
  have hg0 : stepIndex ((0 + 0 : Nat) : Int) true < 0
      ∨ stepIndex ((0 + 0 : Nat) : Int) true = (web.Database.getAll.length : Int) := by
    left; simp [stepIndex]
  have hgn : stepIndex ((0 + (web.Database.getAll.length - 1) : Nat) : Int) false < 0
      ∨ stepIndex ((0 + (web.Database.getAll.length - 1) : Nat) : Int) false
          = (web.Database.getAll.length : Int) := by
    right; simp only [stepIndex]; simp; omega
  constructor
  · simp only [reorderLowerThird, storeDb, Web.log, Web.setDatabase, hgf, hs0, hg0, if_true,
      List.append_assoc, List.singleton_append]
  · simp only [reorderLowerThird, storeDb, Web.log, Web.setDatabase, hgl, hsn, hgn, if_true,
      List.append_assoc, List.singleton_append]

/-- Witness for C2: the store of A, B and C, whose first record is A and last record is C. -/
theorem reorderLowerThird_at_limit_witness :
    reorderLowerThird storeDb recA.Id true (webOf [recA, recB, recC])
        = (.returned (some "Already at the limit."),
            { webOf [recA, recB, recC] with
              effects := (webOf [recA, recB, recC]).effects ++
                [.GetLowerThirdById recA.Id, .GetAllLowerThirds] })
    ∧ reorderLowerThird storeDb recC.Id false (webOf [recA, recB, recC])
        = (.returned (some "Already at the limit."),
            { webOf [recA, recB, recC] with
              effects := (webOf [recA, recB, recC]).effects ++
                [.GetLowerThirdById recC.Id, .GetAllLowerThirds] }) :=
  reorderLowerThird_at_limit (webOf [recA, recB, recC]) recA recC (by decide) (by decide)
    (by decide)

/-- The scan for a record whose id occurs in the list ends at a position inside the list. -/
theorem scanIndex_of_id_mem (lt : LowerThird) :
    ∀ (l : List LowerThird) (k : Nat), lt.Id ∈ l.map (fun r => r.Id) →
      ∃ n : Nat, n < l.length ∧ scanIndex (some lt) l k = .ok ((k + n : Nat) : Int)
  | [], _, h => by simp at h
  | a :: t, k, h => by
    by_cases ha : a.Id = lt.Id
    · exact ⟨0, by simp, by simp [scanIndex, ha]⟩
    · have ht : lt.Id ∈ t.map (fun r => r.Id) := by
        rw [List.map_cons] at h
        rcases List.mem_cons.1 h with e | e
        · exact absurd e.symm ha
        · exact e
      obtain ⟨n, hn, hs⟩ := scanIndex_of_id_mem lt t (k + 1) ht
      refine ⟨n + 1, by simp [hn], ?_⟩
      simp only [scanIndex, ha, if_false, hs]
      congr 2
      omega

/-- Fetch-by-id of an id that some stored record carries returns a record of that id. -/
theorem Store.getById_of_id_mem (s : Store) (id : Int)
    (h : id ∈ s.rows.map (fun r => r.Id)) : ∃ lt, s.getById id = some lt ∧ lt.Id = id := by
  cases hg : s.getById id with
  | none =>
    obtain ⟨r, hr, hid⟩ := List.mem_map.1 h
    exact absurd hid ((s.getById_eq_none id).1 hg r hr)
  | some lt =>
    exact ⟨lt, rfl, by simpa using List.find?_some hg⟩

/-- On the record store, for an id that occurs in the full-list fetch, the scan ends at a
position inside the list, the stepped index meets the guard of line 183 or is a valid index,
and the call returns instead of panicking. -/
theorem reorder_store_returns_for_listed_id (web : Web Store) (id : Int) (moveUp : Bool)
    (hmem : id ∈ web.Database.getAll.map (fun r => r.Id)) :
    (∃ scanned : Nat,
        scanIndex (web.Database.getById id) web.Database.getAll 0 = .ok (scanned : Int)
        ∧ scanned < web.Database.getAll.length
        ∧ ((stepIndex scanned moveUp < 0
              ∨ stepIndex scanned moveUp = (web.Database.getAll.length : Int))
            ∨ ∃ third, web.Database.getAll[(stepIndex scanned moveUp).toNat]? = some third))
    ∧ (reorderLowerThird storeDb id moveUp web).1 ≠ .panicked .indexOutOfRange
    ∧ ∃ err, (reorderLowerThird storeDb id moveUp web).1 = .returned err := by
  have hrows : id ∈ web.Database.rows.map (fun r => r.Id) :=
    (web.Database.getAll_perm.map _).subset hmem
  obtain ⟨lt, hget, hid⟩ := web.Database.getById_of_id_mem id hrows
  obtain ⟨n, hn, hscan⟩ := scanIndex_of_id_mem lt web.Database.getAll 0 (hid ▸ hmem)
  rw [Nat.zero_add] at hscan
  have hstep : (stepIndex n moveUp < 0 ∨ stepIndex n moveUp = (web.Database.getAll.length : Int))
      ∨ ∃ third, web.Database.getAll[(stepIndex n moveUp).toNat]? = some third := by
    by_cases hg : stepIndex n moveUp < 0 ∨ stepIndex n moveUp = (web.Database.getAll.length : Int)
    · exact Or.inl hg
    · right
      have hlt : (stepIndex n moveUp).toNat < web.Database.getAll.length := by
        unfold stepIndex at hg ⊢
        split at hg <;> rename_i hm <;> simp only [hm, if_true, if_false] <;> omega
      exact ⟨_, List.getElem?_eq_getElem hlt⟩
  have hret : ∃ err, (reorderLowerThird storeDb id moveUp web).1 = .returned err := by
    by_cases hg : stepIndex n moveUp < 0 ∨ stepIndex n moveUp = (web.Database.getAll.length : Int)
    · exact ⟨some "Already at the limit.", by
        simp only [reorderLowerThird, storeDb, Web.log, Web.setDatabase, hget, hscan, hg,
          if_true]⟩
    · obtain ⟨third, hthird⟩ := hstep.resolve_left hg
      have htm : third.Id ∈ web.Database.rows.map (fun r => r.Id) :=
        List.mem_map_of_mem _ (web.Database.getAll_perm.subset (List.getElem?_mem hthird))
      obtain ⟨adj, hadj, _⟩ := web.Database.getById_of_id_mem third.Id htm
      exact ⟨none, by
        simp only [reorderLowerThird, storeDb, Web.log, Web.setDatabase, hget, hscan, hg,
          if_false, hthird, hadj, swapAndSave]⟩
  refine ⟨⟨n, by rw [hget, hscan], hn, hstep⟩, ?_, hret⟩
  obtain ⟨err, he⟩ := hret
  rw [he]
  exact fun h => Outcome.noConfusion h

/-! ## The round trip -/

/-- A list that rearranges the stored rows in strictly ascending `DisplayOrder` is the
full-list fetch. -/
theorem Store.getAll_eq_of_sorted (s : Store) (l : List LowerThird) (hp : l.Perm s.rows)
    (hs : l.Sorted strictlyByDisplayOrder) : s.getAll = l := by
  have hanti : IsAntisymm LowerThird strictlyByDisplayOrder :=
    ⟨fun a b h1 h2 => absurd h1 (by unfold strictlyByDisplayOrder at *; omega)⟩
  have hpl : s.getAll.Perm l := s.getAll_perm.trans hp.symm
  have hne : l.Pairwise (fun a b => a.DisplayOrder ≠ b.DisplayOrder) :=
    List.Pairwise.imp (fun h => ne_of_lt h) hs
  have hne1 : s.getAll.Pairwise (fun a b => a.DisplayOrder ≠ b.DisplayOrder) :=
    (hpl.pairwise_iff (fun h => Ne.symm h)).2 hne
  have hs1 : s.getAll.Sorted strictlyByDisplayOrder :=
    List.Pairwise.imp (fun h => lt_of_le_of_ne h.1 h.2) (s.getAll_sorted.and hne1)
  exact List.eq_of_perm_of_sorted hpl hs1 hs

/-- With pairwise distinct display orders the full-list fetch is strictly ascending. -/
theorem Store.getAll_strictly_sorted (s : Store)
    (hord : (s.rows.map (fun r => r.DisplayOrder)).Nodup) :
    s.getAll.Sorted strictlyByDisplayOrder := by
  have hne : s.rows.Pairwise (fun a b => a.DisplayOrder ≠ b.DisplayOrder) :=
    List.pairwise_map.1 hord
  have hne1 : s.getAll.Pairwise (fun a b => a.DisplayOrder ≠ b.DisplayOrder) :=
    (s.getAll_perm.pairwise_iff (fun h => Ne.symm h)).2 hne
  exact List.Pairwise.imp (fun h => lt_of_le_of_ne h.1 h.2) (s.getAll_sorted.and hne1)

/-- A list split around two neighbouring positions. -/
theorem eq_take_cons_cons_drop {α : Type} :
    ∀ (l : List α) (i : Nat) (x y : α), l[i]? = some x → l[i + 1]? = some y →
      l = l.take i ++ x :: y :: l.drop (i + 2)
  | [], _, _, _, h, _ => by simp at h
  | a :: t, 0, x, y, h, h2 => by
    cases t with
    | nil => simp at h2
    | cons b u =>
      simp at h h2
      subst h
      subst h2
      simp
  | a :: t, i + 1, x, y, h, h2 => by
    have ih := eq_take_cons_cons_drop t i x y (by simpa using h) (by simpa using h2)
    simp only [List.take_succ_cons, List.drop_succ_cons, List.cons_append]
    exact congrArg (List.cons a) ih

/-- After the exchange of the display orders of the neighbours `x` (position `i`) and `y`
(position `i + 1`), with unique ids and pairwise distinct display orders, the full-list fetch
has `y` at position `i` and `x` at position `i + 1`. -/
theorem getAll_after_exchange (s : Store) (i : Nat) (x y : LowerThird)
    (hids : (s.rows.map (fun r => r.Id)).Nodup)
    (hord : (s.rows.map (fun r => r.DisplayOrder)).Nodup)
    (hi : s.getAll[i]? = some x) (hj : s.getAll[i + 1]? = some y) :
    (Store.mk (s.rows.map (exchanged x y))).getAll[i]?
        = some { y with DisplayOrder := x.DisplayOrder }
    ∧ (Store.mk (s.rows.map (exchanged x y))).getAll[i + 1]?
        = some { x with DisplayOrder := y.DisplayOrder } := by
  obtain ⟨A, B, hL, hA⟩ : ∃ A B, s.getAll = A ++ x :: y :: B ∧ A.length = i :=
    ⟨_, _, eq_take_cons_cons_drop _ i x y hi hj, by
      have := (List.getElem?_eq_some.1 hi).1
      simp only [List.length_take]
      omega⟩
  have hall := s.getAll_ids_nodup hids
  have hstrict := s.getAll_strictly_sorted hord
  rw [hL] at hall hstrict
  simp only [List.map_append, List.map_cons, List.nodup_append, List.nodup_cons,
    List.mem_cons, List.mem_map, List.Disjoint] at hall
  simp only [List.Sorted, List.pairwise_append, List.pairwise_cons, List.mem_cons,
    strictlyByDisplayOrder] at hstrict
  obtain ⟨_, ⟨hxy, hyB, _⟩, hAids⟩ := hall
  obtain ⟨hsA, ⟨hxlt, hyltB, hsB⟩, hAlt⟩ := hstrict
  have hne : x.Id ≠ y.Id := fun e => hxy (Or.inl e)
  have hmapA : A.map (exchanged x y) = A := by
    conv_rhs => rw [← List.map_id A]
    apply List.map_congr_left
    intro a ha
    have h1 : a.Id ≠ x.Id := fun e => hAids ⟨a, ha, rfl⟩ (Or.inl e)
    have h2 : a.Id ≠ y.Id := fun e => hAids ⟨a, ha, rfl⟩ (Or.inr (Or.inl e))
    simp [exchanged, h1, h2]
  have hmapB : B.map (exchanged x y) = B := by
    conv_rhs => rw [← List.map_id B]
    apply List.map_congr_left
    intro b hb
    have h1 : b.Id ≠ x.Id := fun e => hxy (Or.inr ⟨b, hb, e⟩)
    have h2 : b.Id ≠ y.Id := fun e => hyB ⟨b, hb, e⟩
    simp [exchanged, h1, h2]
  have hex : exchanged x y x = { x with DisplayOrder := y.DisplayOrder } := by
    simp [exchanged]
  have hey : exchanged x y y = { y with DisplayOrder := x.DisplayOrder } := by
    simp [exchanged, hne.symm]
  have hperm : (A ++ { y with DisplayOrder := x.DisplayOrder }
      :: { x with DisplayOrder := y.DisplayOrder } :: B).Perm (s.rows.map (exchanged x y)) := by
    have h1 : (s.getAll.map (exchanged x y)).Perm (s.rows.map (exchanged x y)) :=
      s.getAll_perm.map _
    rw [hL, List.map_append, List.map_cons, List.map_cons, hmapA, hmapB, hex, hey] at h1
    exact (List.Perm.append_left A (List.Perm.swap _ _ B)).trans h1
  have hsorted : (A ++ { y with DisplayOrder := x.DisplayOrder }
      :: { x with DisplayOrder := y.DisplayOrder } :: B).Sorted strictlyByDisplayOrder := by
    simp only [List.Sorted, List.pairwise_append, List.pairwise_cons, List.mem_cons,
      strictlyByDisplayOrder]
    refine ⟨hsA, ⟨?_, ?_, hsB⟩, ?_⟩
    · rintro a (rfl | ha)
      · exact hxlt y (Or.inl rfl)
      · exact hxlt a (Or.inr ha)
    · exact hyltB
    · rintro a ha b (rfl | rfl | hb)
      · exact hAlt a ha x (Or.inl rfl)
      · exact hAlt a ha y (Or.inr (Or.inl rfl))
      · exact hAlt a ha b (Or.inr (Or.inr hb))
  rw [Store.getAll_eq_of_sorted ⟨s.rows.map (exchanged x y)⟩ _ hperm hsorted]
  subst hA
  constructor
  · rw [List.getElem?_append_right (Nat.le_refl _), Nat.sub_self]
    simp
  · rw [List.getElem?_append_right (Nat.le_add_right _ _), Nat.add_sub_cancel_left]
    simp

/-- Exchanging back undoes the exchange on rows of unique ids. -/
theorem exchanged_exchanged (rows : List LowerThird)
    (hids : (rows.map (fun r => r.Id)).Nodup) (x y : LowerThird) (hx : x ∈ rows) (hy : y ∈ rows)
    (hne : x.Id ≠ y.Id) :
    (rows.map (exchanged x y)).map
        (exchanged { x with DisplayOrder := y.DisplayOrder }
          { y with DisplayOrder := x.DisplayOrder })
      = rows := by
  rw [List.map_map]
  conv_rhs => rw [← List.map_id rows]
  apply List.map_congr_left
  intro r hr
  by_cases h1 : r.Id = x.Id
  · have : r = x := List.inj_on_of_nodup_map hids hr hx h1
    subst this
    simp [exchanged]
  · by_cases h2 : r.Id = y.Id
    · have : r = y := List.inj_on_of_nodup_map hids hr hy h2
      subst this
      simp [exchanged, h1]
    · simp [exchanged, h1, h2]

/-- The ids of the rows are the same after an exchange. -/
theorem map_id_map_exchanged (rows : List LowerThird) (x y : LowerThird) :
    (rows.map (exchanged x y)).map (fun r => r.Id) = rows.map (fun r => r.Id) := by
  rw [List.map_map]
  apply List.map_congr_left
  intro r _
  exact (exchanged_fields x y r).1

/-- C6, as amended: on the record store with unique ids and pairwise distinct display orders,
let `x` and `y` be the records at positions `i` and `i + 1` of the full-list fetch. Moving `x`
down succeeds and leaves `x` at position `i + 1` of the full-list fetch; moving the record now
at position `i + 1`, which is `x`, up again succeeds and leaves the store equal to the initial
one. -/
theorem reorder_down_then_up_restores (web : Web Store) (i : Nat) (x y : LowerThird)
    (hids : (web.Database.rows.map (fun r => r.Id)).Nodup)
    (hord : (web.Database.rows.map (fun r => r.DisplayOrder)).Nodup)
    (hi : web.Database.getAll[i]? = some x) (hj : web.Database.getAll[i + 1]? = some y) :
    (reorderLowerThird storeDb x.Id false web).1 = .returned none
    ∧ ((reorderLowerThird storeDb x.Id false web).2.Database.getAll[i + 1]?).map (fun r => r.Id)
        = some x.Id
    ∧ (reorderLowerThird storeDb x.Id true (reorderLowerThird storeDb x.Id false web).2).1
        = .returned none
    ∧ (reorderLowerThird storeDb x.Id true (reorderLowerThird storeDb x.Id false web).2).2.Database
        = web.Database := by
  have hall := web.Database.getAll_ids_nodup hids
  have hxm : x ∈ web.Database.rows := web.Database.getAll_perm.subset (List.getElem?_mem hi)
  have hym : y ∈ web.Database.rows := web.Database.getAll_perm.subset (List.getElem?_mem hj)
  have hne : x.Id ≠ y.Id := id_ne_of_getElem? _ hall i (i + 1) x y hi hj (by omega)
  have hdown := reorder_store_exchange web i (i + 1) false x y hids hi hj (by simp [stepIndex])
  obtain ⟨hpy, hpx⟩ := getAll_after_exchange web.Database i x y hids hord hi hj
  rw [hdown]
  have hids1 : ((web.Database.rows.map (exchanged x y)).map (fun r => r.Id)).Nodup := by
    rw [map_id_map_exchanged]
    exact hids
  have hup := reorder_store_exchange
    { Database := ⟨web.Database.rows.map (exchanged x y)⟩,
      AudienceDisplayScreen := web.AudienceDisplayScreen,
      effects := web.effects ++
        [.GetLowerThirdById x.Id, .GetAllLowerThirds, .GetLowerThirdById y.Id,
         .SaveLowerThird { x with DisplayOrder := y.DisplayOrder },
         .SaveLowerThird { y with DisplayOrder := x.DisplayOrder }] }
    (i + 1) i true { x with DisplayOrder := y.DisplayOrder }
    { y with DisplayOrder := x.DisplayOrder } hids1 hpx hpy (by simp [stepIndex])
  refine ⟨rfl, by simp [hpx], ?_, ?_⟩
  · exact congrArg Prod.fst hup
  · have h2 := congrArg (fun p => p.2.Database) hup
    simp only at h2
    rw [h2, exchanged_exchanged web.Database.rows hids x y hxm hym hne]

/-- Witness for C6 as amended: B of A, B and C moved down, then up again. -/
theorem reorder_down_then_up_restores_witness :
    (reorderLowerThird storeDb recB.Id false (webOf [recA, recB, recC])).1 = .returned none
    ∧ ((reorderLowerThird storeDb recB.Id false
          (webOf [recA, recB, recC])).2.Database.getAll[1 + 1]?).map (fun r => r.Id)
        = some recB.Id
    ∧ (reorderLowerThird storeDb recB.Id true
          (reorderLowerThird storeDb recB.Id false (webOf [recA, recB, recC])).2).1
        = .returned none
    ∧ (reorderLowerThird storeDb recB.Id true
          (reorderLowerThird storeDb recB.Id false (webOf [recA, recB, recC])).2).2.Database
        = (webOf [recA, recB, recC]).Database :=
  reorder_down_then_up_restores (webOf [recA, recB, recC]) 1 recB recC (by decide) (by decide)
    (by decide) (by decide)

/-- C6, as stated, fails: on the store of A(order 1) and B(order 2), moving A (position 0) down
succeeds; B, the record that was at position 1, is then first in the full-list fetch, and moving
it up returns `Already at the limit.`; the store is left with the orders exchanged, not
restored. -/
theorem reorder_round_trip_by_initial_position_fails :
    ((webOf [recA, recB]).Database.rows.map (fun r => r.Id)).Nodup
    ∧ ((webOf [recA, recB]).Database.rows.map (fun r => r.DisplayOrder)).Nodup
    ∧ (webOf [recA, recB]).Database.getAll = [recA, recB]
    ∧ (reorderLowerThird storeDb recA.Id false (webOf [recA, recB])).1 = .returned none
    ∧ (reorderLowerThird storeDb recB.Id true
          (reorderLowerThird storeDb recA.Id false (webOf [recA, recB])).2).1
        = .returned (some "Already at the limit.")
    ∧ ordersById (reorderLowerThird storeDb recB.Id true
          (reorderLowerThird storeDb recA.Id false (webOf [recA, recB])).2).2.Database
        = [(1, 2), (2, 1)]
    ∧ (reorderLowerThird storeDb recB.Id true
          (reorderLowerThird storeDb recA.Id false (webOf [recA, recB])).2).2.Database
        ≠ (webOf [recA, recB]).Database := by
  decide


/-! ## Further facts about the error paths -/

/-- A `deleteLowerThird` command whose payload decodes writes the reload when the delete
returned no error, and the error message alone when it returned one. -/
theorem delete_command_reloads_iff_deleted {σ : Type} (db : Database σ) (data : Data)
    (r : LowerThird) (web : Web σ) (ws : Websocket) (hdec : data.decodeLowerThird = .ok r) :
    sentBetween ws (handleMessage db "deleteLowerThird" data web ws).2.2
      = (match (db.DeleteLowerThird web.Database r).1 with
          | none => [Message.reload]
          | some err => [⟨"error", some err⟩]) := by
  have hs : ¬ ("deleteLowerThird" = "saveLowerThird") := by decide
  rcases hdel : db.DeleteLowerThird web.Database r with ⟨e, r1, s⟩
  cases e <;>
    simp [handleMessage, hs, hdec, hdel, writeReload_snd, sentBetween_write, Message.reload,
      Websocket.WriteError]

/-- A `reorderLowerThird` command whose payload decodes writes the reload when
`reorderLowerThird` returned no error, the error message alone when it returned one, and
nothing when it panicked. -/
theorem reorder_command_reloads_iff_reordered {σ : Type} (db : Database σ) (data : Data)
    (args : ReorderArgs) (web : Web σ) (ws : Websocket)
    (hdec : data.decodeReorderArgs = .ok args) :
    sentBetween ws (handleMessage db "reorderLowerThird" data web ws).2.2
      = (match (reorderLowerThird db args.Id args.MoveUp web).1 with
          | .returned none => [Message.reload]
          | .returned (some err) => [⟨"error", some err⟩]
          | .panicked _ => []) := by
  have h1 : ¬ ("reorderLowerThird" = "saveLowerThird") := by decide
  have h2 : ¬ ("reorderLowerThird" = "deleteLowerThird") := by decide
  have h3 : ¬ ("reorderLowerThird" = "showLowerThird") := by decide
  have h4 : ¬ ("reorderLowerThird" = "hideLowerThird") := by decide
  rcases hre : reorderLowerThird db args.Id args.MoveUp web with ⟨o, web1⟩
  rcases o with (_ | err) | p <;>
    simp [handleMessage, h1, h2, h3, h4, hdec, hre, writeReload_snd, sentBetween_write,
      sentBetween_self, Message.reload, Websocket.WriteError]

/-- A payload that does not decode makes the save, delete and reorder commands write the
decode error alone. -/
theorem decode_failure_reports_without_reload {σ : Type} (db : Database σ) (data : Data)
    (web : Web σ) (ws : Websocket) :
    (∀ err, data.decodeLowerThird = .error err →
      sentBetween ws (handleMessage db "saveLowerThird" data web ws).2.2 = [⟨"error", some err⟩]
      ∧ sentBetween ws (handleMessage db "deleteLowerThird" data web ws).2.2
          = [⟨"error", some err⟩])
    ∧ (∀ err, data.decodeReorderArgs = .error err →
      sentBetween ws (handleMessage db "reorderLowerThird" data web ws).2.2
        = [⟨"error", some err⟩]) := by
  have h0 : ¬ ("deleteLowerThird" = "saveLowerThird") := by decide
  have h1 : ¬ ("reorderLowerThird" = "saveLowerThird") := by decide
  have h2 : ¬ ("reorderLowerThird" = "deleteLowerThird") := by decide
  have h3 : ¬ ("reorderLowerThird" = "showLowerThird") := by decide
  have h4 : ¬ ("reorderLowerThird" = "hideLowerThird") := by decide
  constructor
  · intro err hdec
    simp [handleMessage, h0, hdec, sentBetween_write, Websocket.WriteError]
  · intro err hdec
    simp [handleMessage, h1, h2, h3, h4, hdec, sentBetween_write, Websocket.WriteError]

/-- Whatever the database, when fetch-by-id returns nil without error `reorderLowerThird` has
no path that reports the missing record: it returns the error of the full-list fetch, or, on an
empty list, `Already at the limit.` for `moveUp` and an index panic otherwise, or, on a
non-empty list, panics on the nil pointer. -/
theorem reorder_after_nil_fetch {σ : Type} (db : Database σ) (id : Int) (moveUp : Bool)
    (web : Web σ) (s : σ) (hget : db.GetLowerThirdById web.Database id = (.ok none, s)) :
    (reorderLowerThird db id moveUp web).1
      = (match (db.GetAllLowerThirds s).1 with
          | .error err => .returned (some err)
          | .ok [] =>
            if moveUp then .returned (some "Already at the limit.")
            else .panicked .indexOutOfRange
          | .ok (_ :: _) => .panicked .nilPointerDereference) := by
  rcases hall : db.GetAllLowerThirds s with ⟨res, s1⟩
  rcases res with err | l
  · simp [reorderLowerThird, hget, hall, Web.log, Web.setDatabase]
  · cases l with
    | nil =>
      cases moveUp <;>
        simp [reorderLowerThird, hget, hall, Web.log, Web.setDatabase, scanIndex, stepIndex]
    | cons a t =>
      simp [reorderLowerThird, hget, hall, Web.log, Web.setDatabase, scanIndex]


/-! ## Index safety, whatever the database -/

/-- The scan either stops at a position inside the list or leaves the index at zero. -/
theorem scanIndex_found_or_zero (lt : LowerThird) :
    ∀ (l : List LowerThird) (k : Nat),
      (∃ n : Nat, n < l.length ∧ scanIndex (some lt) l k = .ok ((k + n : Nat) : Int))
        ∨ scanIndex (some lt) l k = .ok 0
  | [], _ => Or.inr rfl
  | a :: t, k => by
    by_cases ha : a.Id = lt.Id
    · exact Or.inl ⟨0, by simp, by simp [scanIndex, ha]⟩
    · rcases scanIndex_found_or_zero lt t (k + 1) with ⟨n, hn, hs⟩ | hs
      · refine Or.inl ⟨n + 1, by simp [hn], ?_⟩
        simp only [scanIndex, ha, if_false, hs]
        congr 2
        omega
      · exact Or.inr (by simp only [scanIndex, ha, if_false, hs])

/-- On a non-empty list the scan for a non-nil record ends at a position inside the list. -/
theorem scanIndex_lt_length (lt : LowerThird) (l : List LowerThird) (hl : l ≠ []) :
    ∃ n : Nat, n < l.length ∧ scanIndex (some lt) l 0 = .ok (n : Int) := by
  rcases scanIndex_found_or_zero lt l 0 with ⟨n, hn, hs⟩ | hs
  · exact ⟨n, hn, by rw [hs, Nat.zero_add]⟩
  · exact ⟨0, List.length_pos.2 hl, by rw [hs]; rfl⟩

/-- From a position inside the list, the stepped index meets the guard of line 183 or is a
valid index. -/
theorem stepIndex_guard_or_valid (l : List LowerThird) (n : Nat) (hn : n < l.length)
    (moveUp : Bool) :
    (stepIndex n moveUp < 0 ∨ stepIndex n moveUp = (l.length : Int))
      ∨ ∃ third, l[(stepIndex n moveUp).toNat]? = some third := by
  by_cases hg : stepIndex n moveUp < 0 ∨ stepIndex n moveUp = (l.length : Int)
  · exact Or.inl hg
  · right
    have hlt : (stepIndex n moveUp).toNat < l.length := by
      unfold stepIndex at hg ⊢
      split at hg <;> rename_i hm <;> simp only [hm, if_true, if_false] <;> omega
    exact ⟨_, List.getElem?_eq_getElem hlt⟩

/-- The swap and the two saves never raise an index panic. -/
theorem swapAndSave_ne_indexOutOfRange {σ : Type} (db : Database σ)
    (lowerThird adjacentLowerThird : Option LowerThird) (web : Web σ) :
    (swapAndSave db lowerThird adjacentLowerThird web).1 ≠ .panicked .indexOutOfRange := by
  cases adjacentLowerThird with
  | none => simp [swapAndSave]
  | some adj =>
    cases lowerThird with
    | none => simp [swapAndSave]
    | some lt =>
      rcases h1 : db.SaveLowerThird web.Database
        { lt with DisplayOrder := adj.DisplayOrder } with ⟨e1, r1, s⟩
      cases e1 with
      | some err => simp [swapAndSave, h1]
      | none =>
        rcases h2 : db.SaveLowerThird s { adj with DisplayOrder := lt.DisplayOrder }
          with ⟨e2, r2, s2⟩
        cases e2 <;> simp [swapAndSave, h1, h2, Web.log, Web.setDatabase]

/-- C10: whatever the database, when the full-list fetch of `reorderLowerThird` returns a list
in which the id occurs, the scan for a fetched record ends at a position inside the list, so
the stepped index either meets the guard of line 183 (below zero, or equal to the length) or
is a valid index of the list; in both directions the call never panics with an index out of
range. -/
theorem reorderLowerThird_index_in_bounds {σ : Type} (db : Database σ) (id : Int)
    (moveUp : Bool) (web : Web σ) (lowerThirds : List LowerThird) (s1 : σ)
    (hall : db.GetAllLowerThirds (db.GetLowerThirdById web.Database id).2
      = (.ok lowerThirds, s1))
    (hmem : id ∈ lowerThirds.map (fun r => r.Id)) :
    (∀ lt, (db.GetLowerThirdById web.Database id).1 = .ok (some lt) →
      ∃ scanned : Nat, scanIndex (some lt) lowerThirds 0 = .ok (scanned : Int)
        ∧ scanned < lowerThirds.length
        ∧ ((stepIndex scanned moveUp < 0
              ∨ stepIndex scanned moveUp = (lowerThirds.length : Int))
            ∨ ∃ third, lowerThirds[(stepIndex scanned moveUp).toNat]? = some third))
    ∧ (reorderLowerThird db id moveUp web).1 ≠ .panicked .indexOutOfRange := by
  have hl : lowerThirds ≠ [] := by
    rintro rfl
    simp at hmem
  constructor
  · intro lt _
    obtain ⟨n, hn, hs⟩ := scanIndex_lt_length lt lowerThirds hl
    exact ⟨n, hs, hn, stepIndex_guard_or_valid lowerThirds n hn moveUp⟩
  · rcases hget : db.GetLowerThirdById web.Database id with ⟨res, s⟩
    rw [hget] at hall
    rcases res with err | fetched
    · simp [reorderLowerThird, hget]
    · cases fetched with
      | none =>
        obtain ⟨a, t, rfl⟩ := List.exists_cons_of_ne_nil hl
        simp [reorderLowerThird, hget, hall, Web.log, Web.setDatabase, scanIndex]
      | some lt =>
        obtain ⟨n, hn, hs⟩ := scanIndex_lt_length lt lowerThirds hl
        by_cases hg : stepIndex n moveUp < 0 ∨ stepIndex n moveUp = (lowerThirds.length : Int)
        · simp only [reorderLowerThird, hget, hall, Web.log, Web.setDatabase, hs, hg, if_true]
          simp
        · obtain ⟨third, hthird⟩ :=
            (stepIndex_guard_or_valid lowerThirds n hn moveUp).resolve_left hg
          simp only [reorderLowerThird, hget, hall, Web.log, Web.setDatabase, hs, hg, if_false,
            hthird]
          split
          · simp
          · exact swapAndSave_ne_indexOutOfRange _ _ _ _

/-- Witness for C10: on the record store of A, B and C, moving C, the last one, down. -/
theorem reorderLowerThird_index_in_bounds_witness :
    (∀ lt, (storeDb.GetLowerThirdById (webOf [recA, recB, recC]).Database 3).1 = .ok (some lt) →
      ∃ scanned : Nat, scanIndex (some lt) [recA, recB, recC] 0 = .ok (scanned : Int)
        ∧ scanned < [recA, recB, recC].length
        ∧ ((stepIndex scanned false < 0
              ∨ stepIndex scanned false = (([recA, recB, recC] : List LowerThird).length : Int))
            ∨ ∃ third, [recA, recB, recC][(stepIndex scanned false).toNat]? = some third))
    ∧ (reorderLowerThird storeDb 3 false (webOf [recA, recB, recC])).1
        ≠ .panicked .indexOutOfRange :=
  reorderLowerThird_index_in_bounds storeDb 3 false (webOf [recA, recB, recC])
    [recA, recB, recC] ⟨[recA, recB, recC]⟩ rfl (by decide)

/-- On an empty list the guard does not suffice: moving down from the zero index reaches the
access of line 187 with index 1. -/
theorem reorder_empty_list_move_down_panics :
    (reorderLowerThird storeDb 1 false (webOf [])).1 = .panicked .indexOutOfRange := by
  decide

end CheesyArena
